import Mathlib

/-!
Verification development for the QGIS project-file handling scripts
(`src/scripts/qgis_handling.py` and `src/scripts/document_qgis_layers.py`).

The Python code manipulates XML project documents.  The embedding below
models exactly the slices of the document that the extraction and
indexing code reads and writes:

* a `maplayer` element is modelled by `MapLayer` (its child `id`
  element's text, its `id` attribute, and its child `datasource`
  element's text; `payload` stands for the rest of the subtree that is
  copied verbatim);
* the layer tree (`layer-tree-group` / `layer-tree-layer` elements) is
  modelled by `LNode`, keeping attribute lists;
* element ids and texts are modelled as strings (the code paths under
  study never exercise absent text on an `id` element).

Line references point into the two Python sources.
-/

/-! ### Generic string helpers (Python `in` on strings) -/

/-- Boolean prefix test on character lists. -/
def startsWithB : List Char → List Char → Bool
  | [], _ => true
  | _ :: _, [] => false
  | a :: as, b :: bs => a == b && startsWithB as bs

/-- Auxiliary scan for `isSubstring`. -/
def substrAux (p : List Char) : List Char → Bool
  | [] => startsWithB p []
  | c :: cs => startsWithB p (c :: cs) || substrAux p cs

/-- Python's `pattern in text` substring containment. -/
def isSubstring (pat s : String) : Bool :=
  substrAux pat.data s.data

/-! ### The flat maplayer list and layer selection
    (`qgis_handling.py`, `extract_layers_by_datasource`, lines 313-359) -/

/-- Model of one `maplayer` element of the `projectlayers` section.
`idElem` is the text of the child `id` element (`none` when the element
is absent), `idAttrib` the `id` attribute on the `maplayer` tag itself,
`datasource` the text of the child `datasource` element.  `payload`
stands for the rest of the subtree, copied verbatim on extraction. -/
structure MapLayer where
  idElem : Option String
  idAttrib : Option String
  datasource : Option String
  payload : String
deriving Repr, DecidableEq

/-- The per-layer matching condition of `qgis_handling.py` lines 320-324:
the maplayer must have a child `id` element and a child `datasource`
element with non-empty text containing the pattern. -/
def selectsLayer (pattern : String) (l : MapLayer) : Bool :=
  l.idElem.isSome &&
    (match l.datasource with
     | some ds => ds != "" && isSubstring pattern ds
     | none => false)

/-- The `layer_order` list of `qgis_handling.py` lines 317-327: identifiers
of the matching maplayers in flat document order. -/
def matchingIds (pattern : String) (layers : List MapLayer) : List String :=
  layers.filterMap (fun l => if selectsLayer pattern l then l.idElem else none)

/-- Insertion-ordered key list of the Python dict `matching_layers`
(first occurrence keeps its position, re-insertion does not move it). -/
def dedupKeys (ids : List String) : List String :=
  ids.foldl (fun acc i => if i ∈ acc then acc else acc ++ [i]) []

/-- The `final_layer_order` computation of `qgis_handling.py` lines 349-359:
first every id of `layer_order` that is a key of `matching_layers`, then
every dict key not already present. -/
def finalLayerOrder (pattern : String) (layers : List MapLayer) : List String :=
  let layer_order := matchingIds pattern layers
  let keys := dedupKeys layer_order
  let step1 := layer_order.filter (fun lid => decide (lid ∈ keys))
  keys.foldl (fun acc lid => if lid ∈ acc then acc else acc ++ [lid]) step1

/-- Value stored under key `lid` in the Python dict `matching_layers`:
the last matching maplayer whose id element text is `lid`
(`qgis_handling.py` line 327, dict overwrite semantics). -/
def findMatchLast (pattern : String) (layers : List MapLayer) (lid : String) :
    Option MapLayer :=
  (layers.filter (fun l => selectsLayer pattern l && (l.idElem == some lid))).getLast?

/-- The rebuilt `projectlayers` section (`qgis_handling.py` lines 362-366):
for each id of `final_layer_order`, a verbatim copy of the dict entry. -/
def newProjectlayers (pattern : String) (layers : List MapLayer) : List MapLayer :=
  (finalLayerOrder pattern layers).filterMap (findMatchLast pattern layers)

/-- The rebuilt `layerorder` section (`qgis_handling.py` lines 368-370):
one `layer` element per id of `final_layer_order`, carrying that id as
its `id` attribute. -/
def newLayerorder (pattern : String) (layers : List MapLayer) : List String :=
  finalLayerOrder pattern layers

/-! ### The layer tree and its reassembly
    (`qgis_handling.py`, lines 372-389) -/

/-- Model of the layer-tree element vocabulary: `layer-tree-layer`
leaves and `layer-tree-group` nodes, each with its attribute list. -/
inductive LNode where
  | layer (attrs : List (String × String))
  | group (attrs : List (String × String)) (children : List LNode)

/-- Attribute lookup, Python's `element.get(key)`. -/
def getAttr (attrs : List (String × String)) (k : String) : Option String :=
  (attrs.find? (fun p => p.1 == k)).map (fun p => p.2)

/-- The `name` attribute of a tree node. -/
def nodeName : LNode → Option String
  | LNode.layer a => getAttr a "name"
  | LNode.group a _ => getAttr a "name"

/-- Pre-order search for the first `layer-tree-layer` with `id`
attribute `lid` among `ns` and their descendants, returning the
attributes of its parent group together with the layer's own attributes
(`root.find('.//layer-tree-layer[@id=...]')` followed by
`tree_layer.getparent()`, `qgis_handling.py` lines 373-375). -/
def findLayerIn (lid : String) (pAttrs : List (String × String)) :
    List LNode → Option ((List (String × String)) × (List (String × String)))
  | [] => none
  | LNode.layer a :: ns =>
      if getAttr a "id" == some lid then some (pAttrs, a) else findLayerIn lid pAttrs ns
  | LNode.group a cs :: ns =>
      match findLayerIn lid a cs with
      | some r => some r
      | none => findLayerIn lid pAttrs ns

/-- Search starting from the document's root `layer-tree-group`.  Inside
a layer tree the parent of a `layer-tree-layer` is always a
`layer-tree-group`, so the non-group parent branch of
`qgis_handling.py` line 389 is unreachable here. -/
def findParentOf (orig : LNode) (lid : String) :
    Option ((List (String × String)) × (List (String × String))) :=
  match orig with
  | LNode.layer _ => none
  | LNode.group ra rcs => findLayerIn lid ra rcs

/-- Create-or-reuse step of `qgis_handling.py` lines 377-387: scan the
direct children of the new root for a group whose `name` attribute
equals the parent's `name`; append the layer entry there, else append a
fresh group carrying the parent's attributes. -/
def insertIntoTree (acc : List LNode) (pAttrs layAttrs : List (String × String)) :
    List LNode :=
  match acc with
  | [] => [LNode.group pAttrs [LNode.layer layAttrs]]
  | LNode.group a cs :: ns =>
      if getAttr a "name" == getAttr pAttrs "name" then
        LNode.group a (cs ++ [LNode.layer layAttrs]) :: ns
      else
        LNode.group a cs :: insertIntoTree ns pAttrs layAttrs
  | n :: ns => n :: insertIntoTree ns pAttrs layAttrs

/-- One iteration of the tree branch of the per-layer loop
(`qgis_handling.py` lines 372-389): look the id up in the original
document, then create-or-reuse a group for its parent; a layer whose
tree entry is not found contributes nothing. -/
def addLayerToTree (orig : LNode) (acc : List LNode) (lid : String) : List LNode :=
  match findParentOf orig lid with
  | none => acc
  | some (pAttrs, layAttrs) => insertIntoTree acc pAttrs layAttrs

/-- Children of the rebuilt `layer-tree-group` after processing `ids`
in order. -/
def rebuildLayerTree (orig : LNode) (ids : List String) : List LNode :=
  ids.foldl (addLayerToTree orig) []

/-- The rebuilt layer tree of `extract_layers_by_datasource` for one
document. -/
def newLayerTree (pattern : String) (layers : List MapLayer) (orig : LNode) :
    List LNode :=
  rebuildLayerTree orig (finalLayerOrder pattern layers)

/-- Does the node model a `layer-tree-layer` element. -/
def isLayerNode : LNode → Bool
  | LNode.layer _ => true
  | LNode.group _ _ => false

/-- A node is flat when it is a layer, or a group all of whose children
are layers. -/
def flatNode : LNode → Bool
  | LNode.layer _ => true
  | LNode.group _ cs => cs.all isLayerNode

/-- Number of `layer-tree-layer` entries with `id` attribute `lid`
anywhere in the forest. -/
def countLayerId (lid : String) : List LNode → Nat
  | [] => 0
  | LNode.layer a :: ns =>
      (if getAttr a "id" == some lid then 1 else 0) + countLayerId lid ns
  | LNode.group _ cs :: ns => countLayerId lid cs + countLayerId lid ns

/-! ### The multi-document loop, output write and exit status
    (`qgis_handling.py` lines 290-429 and 515-527) -/

/-- A parsed project document: the `projectlayers` maplayer list
(`none` when the section is absent) and the root `layer-tree-group`. -/
structure QgsDoc where
  projectlayers : Option (List MapLayer)
  layerTree : LNode

/-- Maplayer list of a document (`root.find('projectlayers')`,
absent section contributes no layers). -/
def docLayers (d : QgsDoc) : List MapLayer :=
  d.projectlayers.getD []

/-- Matching ids of one candidate document. -/
def docMatchingIds (pattern : String) (d : QgsDoc) : List String :=
  matchingIds pattern (docLayers d)

/-- One candidate project file: either it parses to a document or
`ET.parse` raises (`qgis_handling.py` line 300). -/
inductive CandidateDoc where
  | parsed (d : QgsDoc)
  | parseError (msg : String)

/-- The rebuilt output document produced from the first matching
candidate. -/
structure NewDoc where
  projectlayers : List MapLayer
  layerorder : List String
  layerTree : List LNode

/-- Assemble the new document for one matching candidate
(`qgis_handling.py` lines 336-389). -/
def buildNewDoc (pattern : String) (d : QgsDoc) : NewDoc :=
  { projectlayers := newProjectlayers pattern (docLayers d)
    layerorder := newLayerorder pattern (docLayers d)
    layerTree := newLayerTree pattern (docLayers d) d.layerTree }

/-- The candidate loop of `extract_layers_by_datasource`
(`qgis_handling.py` lines 296-411): the whole loop body runs inside one
`try`; the `except` at lines 427-429 logs and then re-raises, so an
exception while processing any candidate aborts the run
(`Except.error`).  A candidate with no matching layers is skipped
(`continue`, line 332); the first candidate with matches produces the
output document and ends the loop (`break`, line 411); exhausting all
candidates yields no document. -/
def extractLoop (pattern : String) : List CandidateDoc → Except String (Option NewDoc)
  | [] => Except.ok none
  | CandidateDoc.parseError m :: _ => Except.error m
  | CandidateDoc.parsed d :: rest =>
      if (docMatchingIds pattern d).isEmpty then extractLoop pattern rest
      else Except.ok (some (buildNewDoc pattern d))

/-- Whether an output file is written (`qgis_handling.py` lines 413-421:
only when some candidate produced matches). -/
def wroteOutput (pattern : String) (docs : List CandidateDoc) : Bool :=
  match extractLoop pattern docs with
  | Except.ok (some _) => true
  | _ => false

/-- Exit status of `main` for the extract-layers operation with valid
arguments (`qgis_handling.py` lines 515-527): when no exception escapes,
`main` returns 0 — also when no layer matches; an escaping exception
aborts the process instead. -/
def extractExitCode (pattern : String) (docs : List CandidateDoc) : Except String Nat :=
  match extractLoop pattern docs with
  | Except.error m => Except.error m
  | Except.ok _ => Except.ok 0

/-! ### The output write call (`qgis_handling.py` lines 413-421) -/

/-- Arguments of the `ElementTree.write` call that serializes the new
project. -/
structure WriteCall where
  encoding : String
  xml_declaration : Bool
deriving Repr, DecidableEq

/-- The serializer invocation at `qgis_handling.py` line 420: the
encoding argument is the literal `'utf-8'`, whatever encoding the
source document used. -/
def serializeNewProject (_sourceEncoding : String) : WriteCall :=
  { encoding := "utf-8", xml_declaration := true }

/-- Whether `os.makedirs` runs for the output path
(`qgis_handling.py` lines 415-417): only when the dirname is non-empty
and does not already exist. -/
def makedirsInvoked (outputDir : String) (dirAlreadyThere : Bool) : Bool :=
  (outputDir != "") && !dirAlreadyThere

/-! ### The documentation-path tree indexer
    (`document_qgis_layers.py`, `extract_layer_tree_structure`,
    lines 64-107) -/

/-- Group display name: `group_element.get("name", "")` followed by the
falsy-check replacement with `"Unnamed Group"`
(`document_qgis_layers.py` lines 79-81). -/
def groupNameOf (attrs : List (String × String)) : String :=
  let nm := (getAttr attrs "name").getD ""
  if nm = "" then "Unnamed Group" else nm

/-- Path of a group node given the parent path
(`document_qgis_layers.py` line 83): a node whose parent path is empty
takes its own name with no separator. -/
def currentPathOf (parentPath : String) (attrs : List (String × String)) : String :=
  if parentPath = "" then groupNameOf attrs
  else parentPath ++ "/" ++ groupNameOf attrs

/-- Pre-order list of group paths produced by `process_group` for a
forest of children under a node whose computed path is `parentPath`
(`document_qgis_layers.py` lines 78-105; child layers contribute no
paths). -/
def ltsPathsList (parentPath : String) : List LNode → List String
  | [] => []
  | LNode.layer _ :: ns => ltsPathsList parentPath ns
  | LNode.group a cs :: ns =>
      currentPathOf parentPath a ::
        (ltsPathsList (currentPathOf parentPath a) cs ++ ltsPathsList parentPath ns)

/-- Group paths recorded by `extract_layer_tree_structure`, starting
with `process_group(layer_tree_root)` at parent path `""`
(`document_qgis_layers.py` line 105).  The `layer_tree` dict keys are
these paths with duplicates dropped. -/
def ltsPaths (root : LNode) : List String :=
  match root with
  | LNode.layer _ => []
  | LNode.group a cs => currentPathOf "" a :: ltsPathsList (currentPathOf "" a) cs

/-! ### The documentation-path layer id fallback
    (`document_qgis_layers.py`, lines 144-148) -/

/-- Layer id used by `extract_layer_documentation_data`:
`findtext("id", default="N/A")`, then fallback to the `id` attribute
when the result is `"N/A"`. -/
def docLayerId (m : MapLayer) : String :=
  let lid := match m.idElem with
             | some t => t
             | none => "N/A"
  if lid = "N/A" then m.idAttrib.getD "N/A" else lid

/-! ### Concrete scenario instances -/

/-- All candidate documents parse and none has a matching layer. -/
def allParsedNoMatch (pattern : String) (docs : List CandidateDoc) : Bool :=
  docs.all (fun c =>
    match c with
    | CandidateDoc.parsed d => (docMatchingIds pattern d).isEmpty
    | CandidateDoc.parseError _ => false)

/-- Scenario maplayer `L1`, datasource matches pattern `"pg"`. -/
def mlL1 : MapLayer := ⟨some "L1", none, some "pgA", ""⟩

/-- Scenario maplayer `L2`, datasource does not match `"pg"`. -/
def mlL2 : MapLayer := ⟨some "L2", none, some "fileX", ""⟩

/-- Scenario maplayer `L3`, datasource matches pattern `"pg"`. -/
def mlL3 : MapLayer := ⟨some "L3", none, some "pgB", ""⟩

/-- Scenario flat maplayer list with `L1`, `L2`, `L3`. -/
def c1layers : List MapLayer := [mlL1, mlL2, mlL3]

/-- Scenario layer tree: `L1` and `L2` under the nested group path
`A/Land`, `L3` under group `B`. -/
def c1tree : LNode :=
  LNode.group []
    [LNode.group [("name", "A")]
      [LNode.group [("name", "Land")]
        [LNode.layer [("id", "L1"), ("name", "Layer1")],
         LNode.layer [("id", "L2"), ("name", "Layer2")]]],
     LNode.group [("name", "B")]
      [LNode.layer [("id", "L3"), ("name", "Layer3")]]]

/-- A maplayer no `"pg"` predicate matches. -/
def mlNoMatch : MapLayer := ⟨some "L9", none, some "fileZ", ""⟩

/-- A parsed document without matching layers. -/
def noMatchDoc : QgsDoc := ⟨some [mlNoMatch], LNode.group [] []⟩

/-- Candidate list whose only document has no matching layer. -/
def c5docs : List CandidateDoc := [CandidateDoc.parsed noMatchDoc]

/-- A parsed document with one matching layer. -/
def goodDoc : QgsDoc := ⟨some [mlL1], LNode.group [] [LNode.layer [("id", "L1")]]⟩

/-- Candidate list whose first document fails to parse and whose second
contains a matching layer. -/
def c6docs : List CandidateDoc :=
  [CandidateDoc.parseError "malformed candidate", CandidateDoc.parsed goodDoc]

/-- A layer tree whose root group has no name attribute and one child
group named `A`. -/
def c7tree : LNode := LNode.group [] [LNode.group [("name", "A")] []]

/-- A one-layer tree used to exhibit the rebuild invariant. -/
def c9tree : LNode := LNode.group [] [LNode.layer [("id", "a")]]

/-- A maplayer identified only by an `id` attribute, with a matching
datasource. -/
def mlAttrOnly : MapLayer := ⟨none, some "attr-only", some "pgZ", ""⟩

/-! ### Helper lemmas: selection and ordering -/

/-- Membership in the dict-key fold. -/
theorem mem_dedup_foldl (l : List String) :
    ∀ (acc : List String) (x : String),
      x ∈ l.foldl (fun acc i => if i ∈ acc then acc else acc ++ [i]) acc ↔
        x ∈ acc ∨ x ∈ l := by
  induction l with
  | nil => intro acc x; simp
  | cons i t ih =>
      intro acc x
      rw [List.foldl_cons]
      by_cases hi : i ∈ acc
      · rw [if_pos hi, ih]
        constructor
        · rintro (h | h)
          · exact Or.inl h
          · exact Or.inr (List.mem_cons_of_mem i h)
        · rintro (h | h)
          · exact Or.inl h
          · rcases List.mem_cons.mp h with rfl | h
            · exact Or.inl hi
            · exact Or.inr h
      · rw [if_neg hi, ih]
        simp only [List.mem_append, List.mem_singleton, List.mem_cons]
        tauto

/-- The keys of the `matching_layers` dict are exactly the matched ids. -/
theorem mem_dedupKeys (l : List String) (x : String) :
    x ∈ dedupKeys l ↔ x ∈ l := by
  rw [dedupKeys, mem_dedup_foldl]
  simp

/-- The fold adding absent dict keys adds nothing when every key is
already present. -/
theorem foldl_addKeys_noop :
    ∀ (ks acc : List String), (∀ k ∈ ks, k ∈ acc) →
      ks.foldl (fun acc lid => if lid ∈ acc then acc else acc ++ [lid]) acc = acc := by
  intro ks
  induction ks with
  | nil => intro acc _; rfl
  | cons k t ih =>
      intro acc h
      rw [List.foldl_cons, if_pos (h k (List.mem_cons_self k t))]
      exact ih acc (fun x hx => h x (List.mem_cons_of_mem k hx))

/-- The `final_layer_order` of `qgis_handling.py` lines 349-359 is the
matched-id list itself: the first loop keeps every id (every id of
`layer_order` is a dict key) and the second loop adds nothing. -/
theorem finalLayerOrder_eq (pattern : String) (layers : List MapLayer) :
    finalLayerOrder pattern layers = matchingIds pattern layers := by
  rw [finalLayerOrder]
  have hfilter :
      (matchingIds pattern layers).filter
        (fun lid => decide (lid ∈ dedupKeys (matchingIds pattern layers))) =
        matchingIds pattern layers := by
    rw [List.filter_eq_self]
    intro a ha
    exact decide_eq_true ((mem_dedupKeys _ a).mpr ha)
  simp only [hfilter]
  exact foldl_addKeys_noop _ _ (fun k hk => (mem_dedupKeys _ k).mp hk)

/-- A selected maplayer has an id element. -/
theorem selectsLayer_isSome (pattern : String) (l : MapLayer)
    (h : selectsLayer pattern l = true) : l.idElem.isSome = true := by
  rw [selectsLayer, Bool.and_eq_true] at h
  exact h.1

/-- Characterisation of membership in the matched-id list. -/
theorem mem_matchingIds (pattern : String) (layers : List MapLayer) (lid : String) :
    lid ∈ matchingIds pattern layers ↔
      ∃ l ∈ layers, selectsLayer pattern l = true ∧ l.idElem = some lid := by
  rw [matchingIds, List.mem_filterMap]
  constructor
  · rintro ⟨l, hl, hf⟩
    by_cases hs : selectsLayer pattern l = true
    · rw [if_pos hs] at hf
      exact ⟨l, hl, hs, hf⟩
    · rw [if_neg hs] at hf
      cases hf
  · rintro ⟨l, hl, hs, hid⟩
    exact ⟨l, hl, by rw [if_pos hs, hid]⟩

/-- The dict lookup for a matched id succeeds and returns a maplayer
whose id element carries that id. -/
theorem findMatchLast_spec (pattern : String) (layers : List MapLayer) (lid : String)
    (h : lid ∈ matchingIds pattern layers) :
    ∃ m, findMatchLast pattern layers lid = some m ∧ m.idElem = some lid := by
  rcases (mem_matchingIds pattern layers lid).mp h with ⟨l, hl, hs, hid⟩
  have hmemf : l ∈ layers.filter (fun l => selectsLayer pattern l && (l.idElem == some lid)) := by
    rw [List.mem_filter]
    refine ⟨hl, ?_⟩
    rw [Bool.and_eq_true, hs, hid]
    exact ⟨rfl, beq_self_eq_true _⟩
  have hne := List.ne_nil_of_mem hmemf
  rw [findMatchLast, List.getLast?_eq_getLast_of_ne_nil hne]
  refine ⟨_, rfl, ?_⟩
  have hmem2 := List.getLast_mem hne
  rw [List.mem_filter, Bool.and_eq_true] at hmem2
  exact eq_of_beq hmem2.2.2

/-- Generic: filtering-and-mapping a list of ids through a lookup that
succeeds on every member and returns that member's id recovers the id
list. -/
theorem filterMap_map_idElem (f : String → Option MapLayer) :
    ∀ (xs : List String), (∀ x ∈ xs, ∃ y, f x = some y ∧ y.idElem = some x) →
      (xs.filterMap f).map MapLayer.idElem = xs.map some := by
  intro xs
  induction xs with
  | nil => intro _; rfl
  | cons x t ih =>
      intro h
      rcases h x (List.mem_cons_self x t) with ⟨y, hy, hid⟩
      rw [List.filterMap_cons, hy]
      simp only [List.map_cons, hid]
      rw [ih (fun z hz => h z (List.mem_cons_of_mem x hz))]

/-- The id elements of the rebuilt `projectlayers` section are the
matched ids, in order. -/
theorem newProjectlayers_map (pattern : String) (layers : List MapLayer) :
    (newProjectlayers pattern layers).map MapLayer.idElem =
      (matchingIds pattern layers).map some := by
  rw [newProjectlayers, finalLayerOrder_eq]
  exact filterMap_map_idElem _ _ (findMatchLast_spec pattern layers)

/-- The id elements of the input maplayers that satisfy the selection
condition are the matched ids, in order. -/
theorem filter_map_idElem (pattern : String) (layers : List MapLayer) :
    (layers.filter (selectsLayer pattern)).map MapLayer.idElem =
      (matchingIds pattern layers).map some := by
  induction layers with
  | nil => rfl
  | cons l t ih =>
      by_cases hs : selectsLayer pattern l = true
      · have hsome := selectsLayer_isSome pattern l hs
        rcases Option.isSome_iff_exists.mp hsome with ⟨lid, hid⟩
        rw [List.filter_cons_of_pos hs, matchingIds, List.filterMap_cons, if_pos hs, hid]
        simp only [List.map_cons, hid]
        rw [← matchingIds, ih]
      · have hs2 : selectsLayer pattern l = false := Bool.eq_false_iff.mpr hs
        rw [List.filter_cons_of_neg (by rw [hs2]; simp), matchingIds,
          List.filterMap_cons, if_neg hs, ← matchingIds, ih]

/-- The matched-id list is a subsequence of the full flat id list. -/
theorem matchingIds_sublist (pattern : String) (layers : List MapLayer) :
    (matchingIds pattern layers).Sublist (layers.filterMap MapLayer.idElem) := by
  induction layers with
  | nil => exact List.Sublist.refl []
  | cons l t ih =>
      rw [matchingIds, List.filterMap_cons, List.filterMap_cons, ← matchingIds]
      by_cases hs : selectsLayer pattern l = true
      · rw [if_pos hs]
        cases hid : l.idElem with
        | none => exact ih
        | some lid => exact List.Sublist.cons₂ lid ih
      · rw [if_neg hs]
        cases hid : l.idElem with
        | none => exact ih
        | some lid => exact List.Sublist.cons lid ih

/-! ### Helper lemmas: the rebuilt layer tree -/

/-- A found layer entry carries the id it was searched for. -/
theorem findLayerIn_id (lid : String) (pAttrs : List (String × String)) (ns : List LNode) :
    ∀ p a, findLayerIn lid pAttrs ns = some (p, a) → getAttr a "id" = some lid := by
  induction pAttrs, ns using findLayerIn.induct lid with
  | case1 pA =>
      intro p a h
      simp [findLayerIn] at h
  | case2 pA la ns hif =>
      intro p a h
      rw [findLayerIn, if_pos hif] at h
      cases h
      exact eq_of_beq hif
  | case3 pA la ns hif ih =>
      intro p a h
      rw [findLayerIn, if_neg hif] at h
      exact ih p a h
  | case4 pA ga cs ns r hfind ih =>
      intro p a h
      rw [findLayerIn, hfind] at h
      cases h
      exact ih p a hfind
  | case5 pA ga cs ns hfind ih1 ih2 =>
      intro p a h
      rw [findLayerIn, hfind] at h
      exact ih2 p a h

/-- A parent lookup that succeeds returns layer attributes carrying the
searched id. -/
theorem findParentOf_id (orig : LNode) (lid : String)
    (p a : List (String × String)) (h : findParentOf orig lid = some (p, a)) :
    getAttr a "id" = some lid := by
  cases orig with
  | layer _ => simp [findParentOf] at h
  | group ra rcs => exact findLayerIn_id lid ra rcs p a h

/-- Entry counting distributes over forest concatenation. -/
theorem countLayerId_append (lid : String) :
    ∀ (xs ys : List LNode),
      countLayerId lid (xs ++ ys) = countLayerId lid xs + countLayerId lid ys := by
  intro xs ys
  induction xs with
  | nil => simp [countLayerId]
  | cons n t ih =>
      cases n with
      | layer a => rw [List.cons_append, countLayerId, countLayerId, ih]; omega
      | group a cs => rw [List.cons_append, countLayerId, countLayerId, ih]; omega

/-- Inserting one layer entry raises the count of its id by one and
leaves other counts unchanged. -/
theorem countLayerId_insert (lid : String) (pAttrs layAttrs : List (String × String)) :
    ∀ (acc : List LNode),
      countLayerId lid (insertIntoTree acc pAttrs layAttrs) =
        countLayerId lid acc + (if getAttr layAttrs "id" == some lid then 1 else 0) := by
  intro acc
  induction acc with
  | nil =>
      rw [insertIntoTree]
      simp [countLayerId]
  | cons n t ih =>
      cases n with
      | layer a =>
          rw [show insertIntoTree (LNode.layer a :: t) pAttrs layAttrs =
                LNode.layer a :: insertIntoTree t pAttrs layAttrs from rfl,
            countLayerId, countLayerId, ih]
          omega
      | group a cs =>
          rw [insertIntoTree]
          by_cases hn : (getAttr a "name" == getAttr pAttrs "name") = true
          · rw [if_pos hn, countLayerId, countLayerId, countLayerId_append]
            simp [countLayerId]
            omega
          · rw [if_neg hn, countLayerId, countLayerId, ih]
            omega

/-- Folding the per-layer tree step over an id list adds at most
`ids.count lid` entries carrying id `lid`. -/
theorem countLayerId_foldl_le (orig : LNode) (lid : String) :
    ∀ (ids : List String) (acc : List LNode),
      countLayerId lid (ids.foldl (addLayerToTree orig) acc) ≤
        countLayerId lid acc + ids.count lid := by
  intro ids
  induction ids with
  | nil =>
      intro acc
      simp [List.count_nil]
  | cons j t ih =>
      intro acc
      rw [List.foldl_cons]
      refine le_trans (ih (addLayerToTree orig acc j)) ?_
      have hstep : countLayerId lid (addLayerToTree orig acc j) ≤
          countLayerId lid acc + (if (j == lid) = true then 1 else 0) := by
        rw [addLayerToTree]
        cases hf : findParentOf orig j with
        | none => simp
        | some r =>
            rw [countLayerId_insert lid r.1 r.2 acc,
              findParentOf_id orig j r.1 r.2 (by rw [hf])]
            by_cases hj : j = lid
            · subst hj; simp
            · have h1 : (some j == some lid) = false := by
                rw [Bool.eq_false_iff]
                intro hc
                exact hj (by simpa using eq_of_beq hc)
              have h2 : (j == lid) = false := by
                rw [Bool.eq_false_iff]
                intro hc
                exact hj (eq_of_beq hc)
              rw [h1, h2]
      rw [List.count_cons]
      omega

/-- Invariant carried over the rebuilt root children: every node is
flat (a layer, or a group holding only layers), and every group's
attributes are the original parent attributes of some processed id. -/
def treeInv (orig : LNode) (ids : List String) (n : LNode) : Prop :=
  flatNode n = true ∧
    ∀ a cs, n = LNode.group a cs →
      ∃ lid ∈ ids, ∃ la, findParentOf orig lid = some (a, la)

/-- The create-or-reuse insertion step preserves the invariant. -/
theorem insertIntoTree_inv (orig : LNode) (ids : List String) (lid : String)
    (pAttrs layAttrs : List (String × String))
    (hfind : findParentOf orig lid = some (pAttrs, layAttrs)) (hlid : lid ∈ ids) :
    ∀ (acc : List LNode), (∀ n ∈ acc, treeInv orig ids n) →
      ∀ n ∈ insertIntoTree acc pAttrs layAttrs, treeInv orig ids n := by
  intro acc
  induction acc with
  | nil =>
      intro _ n hn
      rw [insertIntoTree] at hn
      rcases List.mem_singleton.mp hn with rfl
      refine ⟨rfl, ?_⟩
      rintro a cs ⟨rfl, rfl⟩
      exact ⟨lid, hlid, layAttrs, hfind⟩
  | cons m t ih =>
      intro hacc n hn
      cases m with
      | layer a =>
          rw [show insertIntoTree (LNode.layer a :: t) pAttrs layAttrs =
                LNode.layer a :: insertIntoTree t pAttrs layAttrs from rfl] at hn
          rcases List.mem_cons.mp hn with rfl | hn2
          · exact hacc _ (List.mem_cons_self _ _)
          · exact ih (fun x hx => hacc x (List.mem_cons_of_mem _ hx)) n hn2
      | group a cs =>
          rw [insertIntoTree] at hn
          by_cases hname : (getAttr a "name" == getAttr pAttrs "name") = true
          · rw [if_pos hname] at hn
            rcases List.mem_cons.mp hn with rfl | hn2
            · rcases hacc _ (List.mem_cons_self _ _) with ⟨hflat, hprov⟩
              refine ⟨?_, ?_⟩
              · rw [flatNode] at hflat ⊢
                rw [List.all_append, hflat]
                rfl
              · rintro b ds ⟨rfl, rfl⟩
                rcases hprov a cs rfl with ⟨l2, hl2, la2, hf2⟩
                exact ⟨l2, hl2, la2, hf2⟩
            · exact hacc n (List.mem_cons_of_mem _ hn2)
          · rw [if_neg hname] at hn
            rcases List.mem_cons.mp hn with rfl | hn2
            · exact hacc _ (List.mem_cons_self _ _)
            · exact ih (fun x hx => hacc x (List.mem_cons_of_mem _ hx)) n hn2

/-- Folding the per-layer tree step preserves the invariant. -/
theorem rebuild_inv (orig : LNode) (ids : List String) :
    ∀ (todo : List String) (acc : List LNode), (∀ l ∈ todo, l ∈ ids) →
      (∀ n ∈ acc, treeInv orig ids n) →
      ∀ n ∈ todo.foldl (addLayerToTree orig) acc, treeInv orig ids n := by
  intro todo
  induction todo with
  | nil => intro acc _ hacc n hn; exact hacc n hn
  | cons j t ih =>
      intro acc hsub hacc n hn
      rw [List.foldl_cons] at hn
      refine ih (addLayerToTree orig acc j)
        (fun x hx => hsub x (List.mem_cons_of_mem _ hx)) ?_ n hn
      intro m hm
      rw [addLayerToTree] at hm
      cases hf : findParentOf orig j with
      | none => rw [hf] at hm; exact hacc m hm
      | some r =>
          rw [hf] at hm
          exact insertIntoTree_inv orig ids j r.1 r.2 (by rw [hf])
            (hsub j (List.mem_cons_self _ _)) acc hacc m hm

/-! ### Helper lemmas: group paths of the documentation indexer -/

/-- A group display name is never the empty string. -/
theorem groupNameOf_ne (attrs : List (String × String)) : groupNameOf attrs ≠ "" := by
  rw [groupNameOf]
  by_cases h : (getAttr attrs "name").getD "" = ""
  · rw [if_pos h]; decide
  · rw [if_neg h]; exact h

/-- Path of a node under a non-empty parent path. -/
theorem currentPathOf_of_ne (parentPath : String) (attrs : List (String × String))
    (h : parentPath ≠ "") :
    currentPathOf parentPath attrs = parentPath ++ "/" ++ groupNameOf attrs := by
  rw [currentPathOf, if_neg h]

/-- Every direct child group contributes its computed path to the path
list of the surrounding forest. -/
theorem mem_ltsPathsList (parentPath : String) (ca : List (String × String))
    (ccs : List LNode) :
    ∀ (ns : List LNode), LNode.group ca ccs ∈ ns →
      currentPathOf parentPath ca ∈ ltsPathsList parentPath ns := by
  intro ns
  induction ns with
  | nil => intro h; cases h
  | cons m t ih =>
      intro h
      cases m with
      | layer a =>
          rcases List.mem_cons.mp h with heq | h2
          · cases heq
          · rw [show ltsPathsList parentPath (LNode.layer a :: t) =
                  ltsPathsList parentPath t from by rw [ltsPathsList]]
            exact ih h2
      | group b bs =>
          rw [ltsPathsList]
          rcases List.mem_cons.mp h with heq | h2
          · cases heq
            exact List.mem_cons_self _ _
          · exact List.mem_cons_of_mem _
              (List.mem_append.mpr (Or.inr (ih h2)))

/-! ### Claims -/

/-- C3: for every input maplayer list and datasource pattern, the flat
layer list of the output document lists exactly the matched layers in
their input flat-list order (the output id sequence equals the id
sequence of the selected input layers, and the matched id list is a
subsequence of the input's flat id list). -/
theorem c3_order_preservation (pattern : String) (layers : List MapLayer) :
    (newProjectlayers pattern layers).map MapLayer.idElem =
      (layers.filter (selectsLayer pattern)).map MapLayer.idElem ∧
    (newLayerorder pattern layers).Sublist (layers.filterMap MapLayer.idElem) := by
  constructor
  · rw [newProjectlayers_map, filter_map_idElem]
  · rw [newLayerorder, finalLayerOrder_eq]
    exact matchingIds_sublist pattern layers

/-- C5 counterexample: with a candidate list whose documents all parse
and contain no matching layer, no output is written but the overall
exit status is 0, not non-zero as the claim states. -/
theorem c5_counterexample :
    allParsedNoMatch "pg" c5docs = true ∧
    wroteOutput "pg" c5docs = false ∧
    extractExitCode "pg" c5docs = Except.ok 0 :=
  ⟨rfl, rfl, rfl⟩

/-- C5 amended: when the predicate matches zero layers across every
candidate document (all parsing), the extraction writes no output file
and prints a no-match message, and the overall exit status is 0 — the
code has no `NoMatchError` and `main` returns 0 on this path. -/
theorem c5_amended (pattern : String) (docs : List CandidateDoc)
    (h : allParsedNoMatch pattern docs = true) :
    extractLoop pattern docs = Except.ok none ∧
    wroteOutput pattern docs = false ∧
    extractExitCode pattern docs = Except.ok 0 := by
  induction docs with
  | nil => exact ⟨rfl, rfl, rfl⟩
  | cons c t ih =>
      cases c with
      | parseError m => simp [allParsedNoMatch] at h
      | parsed d =>
          rw [allParsedNoMatch, List.all_cons, Bool.and_eq_true] at h
          have hloop : extractLoop pattern (CandidateDoc.parsed d :: t) =
              extractLoop pattern t := by
            rw [extractLoop, if_pos h.1]
          rcases ih h.2 with ⟨h1, h2, h3⟩
          refine ⟨by rw [hloop, h1], ?_, ?_⟩
          · rw [wroteOutput, hloop, h1]
          · rw [extractExitCode, hloop, h1]

/-- C5 witness for the amended theorem at a concrete candidate list. -/
theorem c5_amended_witness :
    allParsedNoMatch "pg" c5docs = true ∧
    extractLoop "pg" c5docs = Except.ok none :=
  ⟨by decide, (c5_amended "pg" c5docs (by decide)).1⟩

/-- C6 counterexample: a parse failure on the first candidate aborts the
whole run with the error (the `except` of `qgis_handling.py` line 427
re-raises), even though the second candidate alone would have produced
an output document; the loop does not advance past the failing
candidate. -/
theorem c6_counterexample :
    extractLoop "pg" c6docs = Except.error "malformed candidate" ∧
    ∃ nd, extractLoop "pg" [CandidateDoc.parsed goodDoc] = Except.ok (some nd) :=
  ⟨rfl, ⟨buildNewDoc "pg" goodDoc, rfl⟩⟩

/-- C6 amended: a parsing error raised while processing one candidate
document is logged and re-raised, aborting the whole extraction run;
the loop never advances to the candidates after the failing one. -/
theorem c6_amended (pattern : String) (m : String) (rest : List CandidateDoc) :
    extractLoop pattern (CandidateDoc.parseError m :: rest) = Except.error m := rfl

/-- C8 counterexample: for a source document encoded as ISO-8859-1 the
serializer still writes UTF-8, so the output encoding is not the source
encoding for every source encoding. -/
theorem c8_counterexample :
    (serializeNewProject "ISO-8859-1").encoding = "utf-8" ∧
    (serializeNewProject "ISO-8859-1").encoding ≠ "ISO-8859-1" := by
  exact ⟨rfl, by decide⟩

/-- C8 amended: the serializer always emits an XML declaration and
always writes UTF-8 — this coincides with the source encoding exactly
when the source is UTF-8 — and `os.makedirs` runs exactly for a
non-empty output directory that does not already exist. -/
theorem c8_amended (sourceEncoding : String) :
    (serializeNewProject sourceEncoding).encoding = "utf-8" ∧
    (serializeNewProject sourceEncoding).xml_declaration = true ∧
    ((serializeNewProject sourceEncoding).encoding = sourceEncoding ↔
      sourceEncoding = "utf-8") ∧
    (∀ d, makedirsInvoked d true = false) ∧
    (∀ d, d ≠ "" → makedirsInvoked d false = true) := by
  refine ⟨rfl, rfl, ?_, ?_, ?_⟩
  · constructor
    · intro h; exact h.symm
    · intro h; rw [h]; rfl
  · intro d
    rw [makedirsInvoked]
    simp
  · intro d hd
    rw [makedirsInvoked]
    simp [hd]

/-- C8 witness for the amended theorem at a concrete source encoding and
output directory. -/
theorem c8_amended_witness :
    (serializeNewProject "ISO-8859-1").xml_declaration = true ∧
    makedirsInvoked "out" false = true :=
  ⟨(c8_amended "ISO-8859-1").2.1,
   (c8_amended "ISO-8859-1").2.2.2.2 "out" (by decide)⟩

/-- C10: a maplayer carrying its identifier only as an `id` attribute
(no child `id` element) is never selected by the extraction path, even
when its datasource matches, while the documentation path falls back to
the attribute and reports exactly that identifier. -/
theorem c10_id_attribute_fallback (pattern : String) (m : MapLayer)
    (attrVal ds : String) (h1 : m.idElem = none) (h2 : m.idAttrib = some attrVal)
    (h3 : m.datasource = some ds) (h4 : isSubstring pattern ds = true) :
    selectsLayer pattern m = false ∧
    (∀ pre post, matchingIds pattern (pre ++ m :: post) =
      matchingIds pattern pre ++ matchingIds pattern post) ∧
    docLayerId m = attrVal := by
  have hsel : selectsLayer pattern m = false := by
    rw [selectsLayer, h1]
    rfl
  refine ⟨hsel, ?_, ?_⟩
  · intro pre post
    rw [matchingIds, List.filterMap_append, List.filterMap_cons, if_neg (by rw [hsel]; simp)]
    rfl
  · rw [docLayerId, h1, h2]
    rfl

/-- C10 witness at a concrete attribute-only maplayer embedded between
two ordinary maplayers. -/
theorem c10_id_attribute_fallback_witness :
    selectsLayer "pg" mlAttrOnly = false ∧
    matchingIds "pg" ([mlL1] ++ mlAttrOnly :: [mlL3]) =
      matchingIds "pg" [mlL1] ++ matchingIds "pg" [mlL3] ∧
    docLayerId mlAttrOnly = "attr-only" :=
  ⟨(c10_id_attribute_fallback "pg" mlAttrOnly "attr-only" "pgZ" rfl rfl rfl (by decide)).1,
   (c10_id_attribute_fallback "pg" mlAttrOnly "attr-only" "pgZ" rfl rfl rfl
      (by decide)).2.1 [mlL1] [mlL3],
   (c10_id_attribute_fallback "pg" mlAttrOnly "attr-only" "pgZ" rfl rfl rfl (by decide)).2.2⟩

/-- C2: for an identifier-unique input maplayer list, the id sequence of
the rebuilt `layerorder` equals the id-element sequence of the rebuilt
`projectlayers` in order, every matched identifier appears exactly once
in the draw-order list, and every identifier appears at most once in the
whole rebuilt layer tree. -/
theorem c2_consistency (pattern : String) (layers : List MapLayer) (orig : LNode)
    (h : (layers.filterMap MapLayer.idElem).Nodup) :
    (newProjectlayers pattern layers).map MapLayer.idElem =
      (newLayerorder pattern layers).map some ∧
    (newLayerorder pattern layers).Nodup ∧
    (∀ lid ∈ matchingIds pattern layers, (newLayerorder pattern layers).count lid = 1) ∧
    (∀ lid, countLayerId lid (newLayerTree pattern layers orig) ≤ 1) := by
  have hord : newLayerorder pattern layers = matchingIds pattern layers := by
    rw [newLayerorder, finalLayerOrder_eq]
  have hnd : (matchingIds pattern layers).Nodup :=
    List.Nodup.sublist (matchingIds_sublist pattern layers) h
  refine ⟨?_, ?_, ?_, ?_⟩
  · rw [hord, newProjectlayers_map]
  · rw [hord]; exact hnd
  · intro lid hl
    rw [hord]
    exact List.count_eq_one_of_mem hnd hl
  · intro lid
    have hbound := countLayerId_foldl_le orig lid (finalLayerOrder pattern layers) []
    have hz : countLayerId lid ([] : List LNode) = 0 := by rw [countLayerId]
    rw [hz, Nat.zero_add] at hbound
    have hcount : (finalLayerOrder pattern layers).count lid ≤ 1 := by
      rw [finalLayerOrder_eq]
      exact List.nodup_iff_count_le_one.mp hnd lid
    exact le_trans hbound hcount

/-- C2 witness at the concrete scenario document. -/
theorem c2_consistency_witness :
    (newProjectlayers "pg" c1layers).map MapLayer.idElem =
      (newLayerorder "pg" c1layers).map some ∧
    (newLayerorder "pg" c1layers).Nodup ∧
    (newLayerorder "pg" c1layers).count "L1" = 1 ∧
    countLayerId "L1" (newLayerTree "pg" c1layers c1tree) ≤ 1 := by
  have h := c2_consistency "pg" c1layers c1tree (by decide)
  exact ⟨h.1, h.2.1, h.2.2.1 "L1" (by decide), h.2.2.2 "L1"⟩

/-- C9: every node of the rebuilt layer tree is either a layer entry or
a group whose children are all layer entries — the reassembler never
nests a created group inside another created group — and every created
group carries the attributes (in particular the name) of the original
immediate parent group of some processed layer id. -/
theorem c9_flat_rebuilt_tree (orig : LNode) (ids : List String) :
    ∀ n ∈ rebuildLayerTree orig ids,
      flatNode n = true ∧
      ∀ a cs, n = LNode.group a cs →
        ∃ lid ∈ ids, ∃ la, findParentOf orig lid = some (a, la) := by
  intro n hn
  exact rebuild_inv orig ids ids [] (fun l hl => hl)
    (fun m hm => absurd hm (List.not_mem_nil m)) n hn

/-- C9 witness: the rebuilt tree of a concrete one-layer document
consists of one flat group. -/
theorem c9_flat_rebuilt_tree_witness :
    flatNode (LNode.group [] [LNode.layer [("id", "a")]]) = true := by
  have heval : rebuildLayerTree c9tree ["a"] =
      [LNode.group [] [LNode.layer [("id", "a")]]] := by
    simp [rebuildLayerTree, addLayerToTree, findParentOf, findLayerIn,
      insertIntoTree, getAttr, c9tree]
  exact (c9_flat_rebuilt_tree c9tree ["a"] (LNode.group [] [LNode.layer [("id", "a")]])
    (by rw [heval]; exact List.mem_singleton.mpr rfl)).1

/-- C4: two sibling groups sharing the same name, each owning one
matched layer, collapse to a single group (with the first parent's
attributes) holding both layer entries in matched order. -/
theorem c4_sibling_group_merge (ra a1 a2 la lb : List (String × String))
    (nm i1 i2 : String) (h1 : getAttr a1 "name" = some nm)
    (h2 : getAttr a2 "name" = some nm) (hla : getAttr la "id" = some i1)
    (hlb : getAttr lb "id" = some i2) (hne : i1 ≠ i2) :
    rebuildLayerTree
      (LNode.group ra
        [LNode.group a1 [LNode.layer la], LNode.group a2 [LNode.layer lb]])
      [i1, i2] =
    [LNode.group a1 [LNode.layer la, LNode.layer lb]] := by
  have t1 : (getAttr la "id" == some i1) = true := by
    rw [hla]; exact beq_self_eq_true _
  have t2 : (getAttr la "id" == some i2) = false := by
    rw [hla, Bool.eq_false_iff]
    intro hc
    exact hne (Option.some.inj (eq_of_beq hc))
  have t3 : (getAttr lb "id" == some i2) = true := by
    rw [hlb]; exact beq_self_eq_true _
  have t4 : (getAttr a1 "name" == getAttr a2 "name") = true := by
    rw [h1, h2]; exact beq_self_eq_true _
  have hf1 : findParentOf
      (LNode.group ra
        [LNode.group a1 [LNode.layer la], LNode.group a2 [LNode.layer lb]]) i1 =
      some (a1, la) := by
    simp [findParentOf, findLayerIn, t1]
  have hf2 : findParentOf
      (LNode.group ra
        [LNode.group a1 [LNode.layer la], LNode.group a2 [LNode.layer lb]]) i2 =
      some (a2, lb) := by
    simp [findParentOf, findLayerIn, t2, t3]
  show List.foldl _ [] [i1, i2] = _
  rw [List.foldl_cons, List.foldl_cons, List.foldl_nil]
  simp [addLayerToTree, hf1, hf2, insertIntoTree, t4]
/-- C4 witness at two concrete sibling groups named `Text`. -/
theorem c4_sibling_group_merge_witness :
    rebuildLayerTree
      (LNode.group []
        [LNode.group [("name", "Text")] [LNode.layer [("id", "a")]],
         LNode.group [("name", "Text"), ("expanded", "1")] [LNode.layer [("id", "b")]]])
      ["a", "b"] =
    [LNode.group [("name", "Text")] [LNode.layer [("id", "a")], LNode.layer [("id", "b")]]] :=
  c4_sibling_group_merge [] [("name", "Text")] [("name", "Text"), ("expanded", "1")]
    [("id", "a")] [("id", "b")] "Text" "a" "b" rfl rfl rfl rfl (by decide)

/-- C7 counterexample: for a nameless root group with one child group
`A`, the indexer records the paths `Unnamed Group` and
`Unnamed Group/A`; the child's path is not `A` alone, so the synthetic
root does contribute a path segment. -/
theorem c7_counterexample :
    ltsPaths c7tree = ["Unnamed Group", "Unnamed Group/A"] ∧
    "A" ∉ ltsPaths c7tree := by
  have heval : ltsPaths c7tree = ["Unnamed Group", "Unnamed Group/A"] := by
    simp [ltsPaths, ltsPathsList, currentPathOf, groupNameOf, getAttr, c7tree]
  exact ⟨heval, by rw [heval]; decide⟩

/-- C7 amended: each node's path is the parent path, `/`, and the node's
name (or `Unnamed Group` when empty or absent); the only exception is
that a node with an empty parent path — the root — takes its name
segment with no separator prefix.  The root is processed like any other
group, so it contributes its own segment and the paths of its direct
child groups are root segment, `/`, child name. -/
theorem c7_amended (ra : List (String × String)) (rcs : List LNode)
    (ca : List (String × String)) (ccs : List LNode)
    (h : LNode.group ca ccs ∈ rcs) :
    ltsPaths (LNode.group ra rcs) =
      groupNameOf ra :: ltsPathsList (groupNameOf ra) rcs ∧
    (groupNameOf ra ++ "/" ++ groupNameOf ca) ∈ ltsPaths (LNode.group ra rcs) := by
  have hroot : currentPathOf "" ra = groupNameOf ra := by
    rw [currentPathOf, if_pos rfl]
  constructor
  · rw [show ltsPaths (LNode.group ra rcs) =
        currentPathOf "" ra :: ltsPathsList (currentPathOf "" ra) rcs from rfl, hroot]
  · have hmem := mem_ltsPathsList (groupNameOf ra) ca ccs rcs h
    rw [currentPathOf_of_ne (groupNameOf ra) ca (groupNameOf_ne ra)] at hmem
    rw [show ltsPaths (LNode.group ra rcs) =
        currentPathOf "" ra :: ltsPathsList (currentPathOf "" ra) rcs from rfl, hroot]
    exact List.mem_cons_of_mem _ hmem

/-- C7 witness for the amended theorem at a concrete two-level tree. -/
theorem c7_amended_witness :
    ("R" ++ "/" ++ "A") ∈
      ltsPaths (LNode.group [("name", "R")] [LNode.group [("name", "A")] []]) :=
  (c7_amended [("name", "R")] [LNode.group [("name", "A")] []] [("name", "A")] []
    (List.mem_singleton.mpr rfl)).2

/-- Unfolding of the per-layer tree step when the parent lookup
succeeds. -/
theorem addLayerToTree_some (orig : LNode) (acc : List LNode) (lid : String)
    (p a : List (String × String)) (h : findParentOf orig lid = some (p, a)) :
    addLayerToTree orig acc lid = insertIntoTree acc p a := by
  unfold addLayerToTree
  rw [h]

/-- Evaluation of the rebuilt layer tree of the C1 scenario: matched ids
are `L1` and `L3`; the reassembler places each under a root-level group
named after its immediate original parent. -/
theorem newLayerTree_c1_eval :
    newLayerTree "pg" c1layers c1tree =
      [LNode.group [("name", "Land")] [LNode.layer [("id", "L1"), ("name", "Layer1")]],
       LNode.group [("name", "B")] [LNode.layer [("id", "L3"), ("name", "Layer3")]]] := by
  have hfin : finalLayerOrder "pg" c1layers = ["L1", "L3"] := by decide
  have h1 : findParentOf c1tree "L1" =
      some ([("name", "Land")], [("id", "L1"), ("name", "Layer1")]) := by
    simp [findParentOf, findLayerIn, getAttr, c1tree]
  have h3 : findParentOf c1tree "L3" =
      some ([("name", "B")], [("id", "L3"), ("name", "Layer3")]) := by
    simp [findParentOf, findLayerIn, getAttr, c1tree]
  rw [show newLayerTree "pg" c1layers c1tree =
      List.foldl (addLayerToTree c1tree) [] (finalLayerOrder "pg" c1layers) from rfl,
    hfin, List.foldl_cons, List.foldl_cons, List.foldl_nil,
    addLayerToTree_some c1tree [] "L1" _ _ h1,
    show insertIntoTree [] [("name", "Land")] [("id", "L1"), ("name", "Layer1")] =
      [LNode.group [("name", "Land")]
        [LNode.layer [("id", "L1"), ("name", "Layer1")]]] from rfl,
    addLayerToTree_some c1tree _ "L3" _ _ h3]
  rfl

/-- C1 counterexample: in the scenario (layers `L1`, `L2` under nested
group path `A/Land`, `L3` under `B`, matched set `L1`, `L3`), the root
children of the rebuilt tree are groups named `Land` and `B`; no group
named `A` exists anywhere, so the reassembler does not walk the full
original group path from the root. -/
theorem c1_counterexample :
    (newLayerTree "pg" c1layers c1tree).map nodeName = [some "Land", some "B"] ∧
    some "A" ∉ (newLayerTree "pg" c1layers c1tree).map nodeName := by
  have heval := newLayerTree_c1_eval
  rw [heval]
  constructor
  · simp [nodeName, getAttr]
  · simp [nodeName, getAttr]

/-- C1 amended: the reassembler uses only each matched layer's immediate
original parent group, not the full group path: in the scenario the
output root children are exactly a group `Land` (with the attributes of
the original `Land` group) containing `L1`'s tree entry and a group `B`
containing `L3`'s tree entry; no `A` level is recreated and `L2` appears
nowhere in the output. -/
theorem c1_amended :
    newLayerTree "pg" c1layers c1tree =
      [LNode.group [("name", "Land")] [LNode.layer [("id", "L1"), ("name", "Layer1")]],
       LNode.group [("name", "B")] [LNode.layer [("id", "L3"), ("name", "Layer3")]]] ∧
    newLayerorder "pg" c1layers = ["L1", "L3"] ∧
    (newProjectlayers "pg" c1layers).map MapLayer.idElem = [some "L1", some "L3"] :=
  ⟨newLayerTree_c1_eval, by decide, by decide⟩
